import Mathlib

/-!
Verification of the pricing core of `src/app.py` (a Streamlit cost-estimation
app).  The Python program is shallowly embedded here:

* Python `float` values are modelled as exact rationals (`ℚ`); the one claim
  whose truth genuinely depends on binary64 rounding (the exporters' discount
  percentage display) is additionally analysed with an exact integer model of
  IEEE-754 binary64 rounding, see `float64OfRat` below.
* Python `dict`s of rates (string key, float value) are modelled as
  association lists with Python's assignment/lookup semantics (`dset`,
  `dget?`, `dgetD`).
* openpyxl cell values are modelled by `CellVal` (blank / string / number),
  with Python truthiness (`truthy`), `str(...)` (`pyStr`) and `float(...)`
  (`pyFloat?`, which fails on non-numeric strings just as `float` raises
  `ValueError`).  `float`'s full literal grammar (exponents, whitespace,
  `inf`/`nan`) is not reproduced; `parseFloatQ` accepts an optional sign,
  digits and an optional fractional part, which is faithful on every string
  the claims touch.
* The fallible spreadsheet reader returns `Except Unit`, the error being
  Python's propagating `ValueError`.

Every definition follows the corresponding lines of `src/app.py`; the single
definition written from the specification's words instead (for the refinement
claim about the rate reader) is `specTable`, and is marked as such.
-/

namespace PrintPricing

/-! ### Rounding helpers (`src/app.py` lines 38-41, Python `round`)

Python 3's built-in `round` rounds to the nearest integer with ties going to
the even neighbour (banker's rounding); on the exactly representable values
relevant here that is the function below. -/

/-- Round-half-to-even on rationals: the integer nearest to `q`, an exact tie
going to the even one of the two neighbours.  This models Python's `round`. -/
def roundHalfEven (q : ℚ) : ℤ :=
  if q - ⌊q⌋ < 1/2 then ⌊q⌋
  else if 1/2 < q - ⌊q⌋ then ⌊q⌋ + 1
  else if ⌊q⌋ % 2 = 0 then ⌊q⌋ else ⌊q⌋ + 1

/-- `mround` from `src/app.py` lines 38-41:
`if multiple == 0: return value` / `return round(value / multiple) * multiple`. -/
def mround (value multiple : ℚ) : ℚ :=
  if multiple = 0 then value
  else (roundHalfEven (value / multiple) : ℚ) * multiple

/-- `discount_factor` from `src/app.py` lines 49-56, with the same cascade of
guards as the source. -/
def discount_factor (qty : ℤ) : ℚ :=
  if 1 < qty ∧ qty ≤ 30 then 0.9
  else if 30 < qty ∧ qty ≤ 100 then 0.8
  else if 100 < qty then 0.75
  else 1.0

/-! ### Python dicts of rates -/

/-- A rate table: Python `dict[str, float]` as an association list with unique
keys (every table in the program is built by `dset` starting from `{}`). -/
abbrev Dict := List (String × ℚ)

/-- Python `d[k] = v`: overwrite the binding in place if `k` is present
(keeping its position), otherwise append it. -/
def dset (d : Dict) (k : String) (v : ℚ) : Dict :=
  if d.any (fun p => p.1 == k) then d.map (fun p => if p.1 == k then (k, v) else p)
  else d ++ [(k, v)]

/-- Python `d.get(k)` as an `Option`: the value bound to `k`, if any. -/
def dget? (d : Dict) (k : String) : Option ℚ :=
  (d.find? (fun p => p.1 == k)).map Prod.snd

/-- Python `d.get(k, v₀)`: the value bound to `k`, defaulting to `v₀`. -/
def dgetD (d : Dict) (k : String) (v₀ : ℚ) : ℚ :=
  (dget? d k).getD v₀

/-! ### Spreadsheet cells and the rate reader (`src/app.py` lines 58-82) -/

/-- The value of an openpyxl cell: empty (`None`), a string, or a number. -/
inductive CellVal where
  | blank : CellVal
  | str : String → CellVal
  | num : ℚ → CellVal
deriving DecidableEq

/-- Python truthiness of a cell value: `None`, `""` and `0` are falsy. -/
def truthy : CellVal → Bool
  | .blank => false
  | .str s => s != ""
  | .num q => decide (q ≠ 0)

/-- Python `str(...)` of a cell value, used for dict keys.  (The numeric case
prints the rational; Python would print the float.  It is reached only for a
truthy numeric name cell and no claim depends on its exact spelling.) -/
def pyStr : CellVal → String
  | .blank => "None"
  | .str s => s
  | .num q => toString q

/-- Value of a (non-empty) digit string. -/
def digitsVal (l : List Char) : ℕ :=
  l.foldl (fun a c => a * 10 + (c.toNat - '0'.toNat)) 0

/-- Unsigned part of Python's `float(str)` grammar: digits with an optional
fractional part (`"12"`, `"12.5"`, `".5"`, `"12."`). -/
def parseUnsignedFloat (l : List Char) : Option ℚ :=
  let ip := l.takeWhile Char.isDigit
  match l.dropWhile Char.isDigit with
  | [] => if ip.isEmpty then none else some (digitsVal ip)
  | '.' :: fp =>
    if fp.all Char.isDigit && !(ip.isEmpty && fp.isEmpty) then
      some ((digitsVal ip : ℚ) + (digitsVal fp : ℚ) / (10 : ℚ) ^ fp.length)
    else none
  | _ => none

/-- Python `float(str)` on the strings relevant here: optional sign, digits,
optional fractional part; anything else is a `ValueError` (`none`). -/
def parseFloatQ (s : String) : Option ℚ :=
  match s.toList with
  | '-' :: rest => (parseUnsignedFloat rest).map Neg.neg
  | '+' :: rest => parseUnsignedFloat rest
  | l => parseUnsignedFloat l

/-- Python `float(...)` on a cell value; `none` is a raised `ValueError`.
(`float(None)` also raises, but every call site guards with `or 0.0`.) -/
def pyFloat? : CellVal → Option ℚ
  | .blank => none
  | .str s => parseFloatQ s
  | .num q => some q

/-- `float(x or 0.0)` from the reader: a falsy cell is read as `0.0`,
otherwise the cell must coerce to a number. -/
def pyFloatOrZero (v : CellVal) : Option ℚ :=
  if truthy v then pyFloat? v else some 0

/-- A worksheet, as the reader sees it: `ws.cell(r, c).value`. -/
abbrev Sheet := ℕ → ℕ → CellVal

/-- One `for r in range(...)` loop of `read_rates_from_sheet`
(`src/app.py` lines 62-66, 69-73, 77-81):
`name = ws.cell(r, 3).value; per = ws.cell(r, 4).value;`
`if name: table[str(name)] = float(per or 0.0)`. -/
def readTableGo (ws : Sheet) : List ℕ → Dict → Except Unit Dict
  | [], acc => .ok acc
  | r :: rs, acc =>
    if truthy (ws r 3) then
      match pyFloatOrZero (ws r 4) with
      | some v => readTableGo ws rs (dset acc (pyStr (ws r 3)) v)
      | none => .error ()
    else readTableGo ws rs acc

/-- `read_rates_from_sheet` from `src/app.py` lines 58-82: materials from rows
6-9, labor rates from rows 13-15, add-on prices from rows 18-20 (column C is
the name, column D the price). -/
def read_rates_from_sheet (ws : Sheet) : Except Unit (Dict × Dict × Dict) := do
  let materials ← readTableGo ws [6, 7, 8, 9] []
  let work ← readTableGo ws [13, 14, 15] []
  let addons ← readTableGo ws [18, 19, 20] []
  return (materials, work, addons)

/-- Modelled from the spec (§4.1), for the refinement claim about the reader:
the rate table described by the specification's words, amended to Python
truthiness — a row contributes an entry iff its name cell is truthy (non-blank,
non-empty string, nonzero number); the entry's price is `0.0` when the price
cell is falsy (blank, empty string or `0`) and its numeric value otherwise;
later rows with the same name overwrite earlier ones. -/
def specTableGo (ws : Sheet) : List ℕ → Dict → Dict
  | [], acc => acc
  | r :: rs, acc =>
    if truthy (ws r 3) then
      specTableGo ws rs (dset acc (pyStr (ws r 3)) ((pyFloatOrZero (ws r 4)).getD 0))
    else specTableGo ws rs acc

/-- The spec-described table for one row range, starting from the empty dict.
See `specTableGo`. -/
def specTable (ws : Sheet) (rows : List ℕ) : Dict :=
  specTableGo ws rows []

/-! ### Form inputs and the pricing engine (`src/app.py` lines 84-157) -/

/-- A `datetime.time` as `time_to_hours` reads it (`hour`, `minute`,
`second`; the unused `microsecond` is omitted). -/
structure PyTime where
  hour : ℕ
  minute : ℕ
  second : ℕ

/-- `time_to_hours` from `src/app.py` lines 30-36: `None` gives `0.0`, a time
gives `t.hour + t.minute/60 + t.second/3600`. -/
def time_to_hours : Option PyTime → ℚ
  | none => 0
  | some t => (t.hour : ℚ) + (t.minute : ℚ) / 60 + (t.second : ℚ) / 3600

/-- The `Inputs` dataclass (`src/app.py` lines 84-94).  A material line is the
dict `{"חומר": name, "גרמים": grams}`; the quantity fields are ints (the
`or 0` guards in `compute` are identities on actual ints). -/
structure Inputs where
  project_name : String
  material_lines : List (String × ℚ)
  modeling_time : Option PyTime
  printing_time : Option PyTime
  assembly_time : Option PyTime
  magnets_qty : ℤ
  led_single_qty : ℤ
  led_desk_qty : ℤ
  units_qty : ℤ

/-- One row of the breakdown table: the `"סעיף"` label and the `"עלות"` cost.
(The `"פירוט"` column is presentation-only string formatting of the same
numbers and is not modelled; no claim mentions it.) -/
structure BRow where
  category : String
  cost : ℚ
deriving DecidableEq

/-- The material loop of `compute` (`src/app.py` lines 100-107), with the
`enumerate(..., start=1)` index: for each line,
`cost = per_g.get(mat, 0.0) * grams` and row label `f"חומר {i}"`. -/
def materialRows (per_g : Dict) : ℕ → List (String × ℚ) → List BRow
  | _, [] => []
  | i, line :: rest =>
    ⟨"חומר " ++ toString i, dgetD per_g line.1 0 * line.2⟩ :: materialRows per_g (i + 1) rest

/-- The result dict returned by `compute` (`src/app.py` lines 146-157), minus
the pandas wrapper: `breakdown` is the row list behind `breakdown_df`. -/
structure Result where
  breakdown : List BRow
  materials_total : ℚ
  labor_total : ℚ
  addons_total : ℚ
  modeling_cost : ℚ
  unit_price : ℚ
  qty : ℤ
  discount : ℚ
  total : ℚ
  project : String

/-- `compute` from `src/app.py` lines 96-157, line by line:
`per_g = {k: v/1000 ...}`; material rows and total; labor costs from the three
fixed work keys times `time_to_hours`; add-on costs from the three fixed
add-on keys times the quantities; `cost_sum_all`;
`unit_price_excl_modeling = cost_sum_all - modeling_cost`;
`total = mround(modeling_cost + unit_price_excl_modeling * qty * disc, 5)`. -/
def compute (inputs : Inputs) (materials_per_kg work_per_h addons_price : Dict) : Result :=
  let per_g : Dict := materials_per_kg.map (fun p => (p.1, p.2 / 1000))
  let materials_rows := materialRows per_g 1 inputs.material_lines
  let mat_total := materials_rows.foldl (fun acc r => acc + r.cost) 0
  let modeling_h := time_to_hours inputs.modeling_time
  let printing_h := time_to_hours inputs.printing_time
  let assembly_h := time_to_hours inputs.assembly_time
  let modeling_cost := dgetD work_per_h "מידול" 0 * modeling_h
  let printing_cost := dgetD work_per_h "הדפסה" 0 * printing_h
  let assembly_cost := dgetD work_per_h "הרכבה" 0 * assembly_h
  let labor_rows : List BRow :=
    [⟨"עבודה", modeling_cost⟩, ⟨"עבודה", printing_cost⟩, ⟨"עבודה", assembly_cost⟩]
  let labor_total := modeling_cost + printing_cost + assembly_cost
  let magnets_cost := dgetD addons_price "מגנטים (שקל/מגנט)" 0 * (inputs.magnets_qty : ℚ)
  let led_single_cost := dgetD addons_price "לד בודד" 0 * (inputs.led_single_qty : ℚ)
  let led_desk_cost := dgetD addons_price "לד שולחני" 0 * (inputs.led_desk_qty : ℚ)
  let addon_rows : List BRow :=
    [⟨"תוספות", magnets_cost⟩, ⟨"תוספות", led_single_cost⟩, ⟨"תוספות", led_desk_cost⟩]
  let addons_total := magnets_cost + led_single_cost + led_desk_cost
  let cost_sum_all := mat_total + labor_total + addons_total
  let unit_price_excl_modeling := cost_sum_all - modeling_cost
  let qty := inputs.units_qty
  let disc := discount_factor qty
  let total := mround (modeling_cost + unit_price_excl_modeling * (qty : ℚ) * disc) 5
  { breakdown := materials_rows ++ labor_rows ++ addon_rows
    materials_total := mat_total
    labor_total := labor_total
    addons_total := addons_total
    modeling_cost := modeling_cost
    unit_price := unit_price_excl_modeling
    qty := qty
    discount := disc
    total := total
    project := inputs.project_name }

/-! ### An exact model of IEEE-754 binary64 rounding, over the integers

The exporters (`render_pdf` line 182, `render_image` line 243) display the
discount percentage as `int((1-result['discount'])*100)`, evaluated in Python
floats (binary64).  Whether that equals the mathematically intended percentage
depends on binary64 rounding, so this one expression is modelled exactly.

A float is a pair `(m, e) : ℤ × ℤ` denoting `m * 2^e`.  `float64OfRat a b`
rounds the rational `a / b` to 53 significant bits with ties to even — the
IEEE-754 `roundTiesToEven` rule used by CPython for literals and arithmetic.
Overflow and subnormals are irrelevant at these magnitudes and not modelled.
All arithmetic is on `ℤ`/`ℕ`, so the definitions evaluate by `decide`. -/

/-- Structural-fuel binary logarithm; with `fuel ≥ n` it is `⌊log₂ n⌋`
(and `0` for `n ≤ 1`). -/
def natLog2Fuel : ℕ → ℕ → ℕ
  | 0, _ => 0
  | fuel + 1, n => if n ≤ 1 then 0 else natLog2Fuel fuel (n / 2) + 1

/-- `⌊log₂ n⌋` for `n ≥ 1` (and `0` at `0`). -/
def log2Nat (n : ℕ) : ℕ :=
  natLog2Fuel n n

/-- Does `2^e ≤ a / b` hold?  (`a`, `b` positive integers.) -/
def pow2le (e : ℤ) (a b : ℕ) : Bool :=
  if 0 ≤ e then b * 2 ^ e.toNat ≤ a else b ≤ a * 2 ^ (-e).toNat

/-- `⌊log₂ (a / b)⌋` for positive `a`, `b`: the candidate from `log2Nat` is
off by at most one, so it is corrected by direct comparison. -/
def floorLog2Q (a b : ℕ) : ℤ :=
  let z : ℤ := (log2Nat a : ℤ) - (log2Nat b : ℤ)
  if pow2le (z + 1) a b then z + 1 else if pow2le z a b then z else z - 1

/-- Round `N / D` (`D > 0`) to the nearest integer, ties to even. -/
def roundDiv (N D : ℤ) : ℤ :=
  let q := N.fdiv D
  let r := N.fmod D
  if 2 * r < D then q else if D < 2 * r then q + 1 else if q % 2 = 0 then q else q + 1

/-- Nearest binary64 to `a / b` for positive `a`, `b`, as `(m, e)` with
`2^52 ≤ m ≤ 2^53`: scale `a / b` by `2^(52 - ⌊log₂(a/b)⌋)` and round ties to
even. -/
def float64Pos (a b : ℕ) : ℤ × ℤ :=
  let e : ℤ := floorLog2Q a b - 52
  let m := if 0 ≤ e then roundDiv a (b * 2 ^ e.toNat) else roundDiv (a * 2 ^ (-e).toNat) b
  (m, e)

/-- Nearest binary64 to the rational `a / b` (`b > 0`), any sign. -/
def float64OfRat (a : ℤ) (b : ℕ) : ℤ × ℤ :=
  if a = 0 then (0, 0)
  else if 0 < a then float64Pos a.toNat b
  else
    let p := float64Pos (-a).toNat b
    (-p.1, p.2)

/-- Python `int()` on the float `m * 2^e`: truncation toward zero. -/
def floatTrunc (x : ℤ × ℤ) : ℤ :=
  if 0 ≤ x.2 then x.1 * 2 ^ x.2.toNat else x.1.tdiv (2 ^ (-x.2).toNat)

/-- The binary64 result of `1 - d` for the float `d = m * 2^e` with `e ≤ 0`:
the exact difference `(2^(-e) - m) / 2^(-e)`, rounded. -/
def floatOneSub (d : ℤ × ℤ) : ℤ × ℤ :=
  float64OfRat (2 ^ (-d.2).toNat - d.1) (2 ^ (-d.2).toNat)

/-- The binary64 result of `x * 100` for the float `x = m * 2^e`. -/
def floatMul100 (x : ℤ × ℤ) : ℤ × ℤ :=
  if 0 ≤ x.2 then float64OfRat (x.1 * 100 * 2 ^ x.2.toNat) 1
  else float64OfRat (x.1 * 100) (2 ^ (-x.2).toNat)

/-- `int((1 - d) * 100)` as CPython evaluates it on the float `d`
(`render_pdf` line 182, `render_image` line 243, `src/app.py`). -/
def displayedDiscountPercent (d : ℤ × ℤ) : ℤ :=
  floatTrunc (floatMul100 (floatOneSub d))

/-! ### Helper lemmas -/

theorem roundHalfEven_sub_le (q : ℚ) : |(roundHalfEven q : ℚ) - q| ≤ 1/2 := by
  have h0 : ((⌊q⌋ : ℤ) : ℚ) ≤ q := Int.floor_le q
  have h1 : q < ⌊q⌋ + 1 := Int.lt_floor_add_one q
  unfold roundHalfEven
  split_ifs <;> push_cast <;> rw [abs_le] <;> constructor <;> linarith

theorem roundHalfEven_nearest (q : ℚ) (k : ℤ) :
    |(roundHalfEven q : ℚ) - q| ≤ |(k : ℚ) - q| := by
  rcases eq_or_ne k (roundHalfEven q) with h | h
  · rw [h]
  · have h1 : (1 : ℚ) ≤ |(k : ℚ) - (roundHalfEven q : ℚ)| := by
      have h2 : (1 : ℤ) ≤ |k - roundHalfEven q| := Int.one_le_abs (sub_ne_zero.mpr h)
      exact_mod_cast h2
    have h2 := roundHalfEven_sub_le q
    have h3 : |(k : ℚ) - (roundHalfEven q : ℚ)| ≤ |(k : ℚ) - q| + |q - (roundHalfEven q : ℚ)| :=
      abs_sub_le _ _ _
    have h4 : |q - (roundHalfEven q : ℚ)| = |(roundHalfEven q : ℚ) - q| := abs_sub_comm _ _
    linarith

theorem dget?_map_snd (f : ℚ → ℚ) (d : Dict) (k : String) :
    dget? (d.map (fun p => (p.1, f p.2))) k = (dget? d k).map f := by
  induction d with
  | nil => rfl
  | cons p t ih =>
    by_cases h : (p.1 == k) = true
    · simp [dget?, List.find?_cons_of_pos, h]
    · simpa [dget?, List.find?_cons_of_neg, h] using ih

theorem materialRows_length (per_g : Dict) :
    ∀ (i : ℕ) (lines : List (String × ℚ)), (materialRows per_g i lines).length = lines.length := by
  intro i lines
  induction lines generalizing i with
  | nil => rfl
  | cons l t ih => simp [materialRows, ih]

theorem materialRows_getElem? (per_g : Dict) :
    ∀ (lines : List (String × ℚ)) (i j : ℕ) (name : String) (grams : ℚ),
      lines[j]? = some (name, grams) →
      (materialRows per_g i lines)[j]? =
        some ⟨"חומר " ++ toString (i + j), dgetD per_g name 0 * grams⟩ := by
  intro lines
  induction lines with
  | nil => intro i j name grams h; simp at h
  | cons l t ih =>
    intro i j name grams h
    cases j with
    | zero =>
      simp at h
      simp [materialRows, h]
    | succ j =>
      simp only [List.getElem?_cons_succ] at h
      have hj := ih (i + 1) j name grams h
      have harith : i + 1 + j = i + (j + 1) := by omega
      simpa [materialRows, harith] using hj

theorem readTableGo_ok_spec (ws : Sheet) :
    ∀ (rows : List ℕ) (acc t : Dict),
      readTableGo ws rows acc = .ok t → specTableGo ws rows acc = t := by
  intro rows
  induction rows with
  | nil =>
    intro acc t h
    simpa [readTableGo, specTableGo] using h
  | cons r rs ih =>
    intro acc t h
    by_cases ht : truthy (ws r 3) = true
    · cases hp : pyFloatOrZero (ws r 4) with
      | none => simp [readTableGo, ht, hp] at h
      | some v =>
        simp only [readTableGo, ht, if_true, hp] at h
        simp only [specTableGo, ht, if_true, hp, Option.getD_some]
        exact ih _ _ h
    · simp only [readTableGo, ht, if_false, Bool.false_eq_true] at h
      simp only [specTableGo, ht, if_false, Bool.false_eq_true]
      exact ih _ _ h

theorem readTableGo_error_of_bad (ws : Sheet) :
    ∀ (rows : List ℕ) (acc : Dict),
      (∃ r ∈ rows, truthy (ws r 3) = true ∧ pyFloatOrZero (ws r 4) = none) →
      readTableGo ws rows acc = .error () := by
  intro rows
  induction rows with
  | nil =>
    intro acc h
    rcases h with ⟨r, hr, _⟩
    simp at hr
  | cons r rs ih =>
    intro acc h
    rcases h with ⟨x, hx, hbad⟩
    rcases List.mem_cons.mp hx with rfl | hx'
    · simp [readTableGo, hbad.1, hbad.2]
    · by_cases ht : truthy (ws r 3) = true
      · cases hp : pyFloatOrZero (ws r 4) with
        | none => simp [readTableGo, ht, hp]
        | some v =>
          simp only [readTableGo, ht, if_true, hp]
          exact ih _ ⟨x, hx', hbad⟩
      · simp only [readTableGo, ht, if_false, Bool.false_eq_true]
        exact ih _ ⟨x, hx', hbad⟩

theorem compute_breakdown_shape (inputs : Inputs) (m w a : Dict) :
    (compute inputs m w a).breakdown =
      materialRows (m.map (fun p => (p.1, p.2 / 1000))) 1 inputs.material_lines
        ++ [⟨"עבודה", dgetD w "מידול" 0 * time_to_hours inputs.modeling_time⟩,
            ⟨"עבודה", dgetD w "הדפסה" 0 * time_to_hours inputs.printing_time⟩,
            ⟨"עבודה", dgetD w "הרכבה" 0 * time_to_hours inputs.assembly_time⟩]
        ++ [⟨"תוספות", dgetD a "מגנטים (שקל/מגנט)" 0 * (inputs.magnets_qty : ℚ)⟩,
            ⟨"תוספות", dgetD a "לד בודד" 0 * (inputs.led_single_qty : ℚ)⟩,
            ⟨"תוספות", dgetD a "לד שולחני" 0 * (inputs.led_desk_qty : ℚ)⟩] :=
  rfl

theorem compute_modeling_cost_eq (inputs : Inputs) (m w a : Dict) :
    (compute inputs m w a).modeling_cost =
      dgetD w "מידול" 0 * time_to_hours inputs.modeling_time :=
  rfl

/-! ### Claims -/

/-- Claim C1: for every integer quantity `qty`, `discount_factor qty` is
exactly `1.0` when `qty ≤ 1`, `0.9` when `1 < qty ≤ 30`, `0.8` when
`30 < qty ≤ 100`, and `0.75` when `qty > 100`. -/
theorem discount_factor_tiers (qty : ℤ) :
    (qty ≤ 1 → discount_factor qty = 1.0) ∧
    (1 < qty → qty ≤ 30 → discount_factor qty = 0.9) ∧
    (30 < qty → qty ≤ 100 → discount_factor qty = 0.8) ∧
    (100 < qty → discount_factor qty = 0.75) := by
  unfold discount_factor
  refine ⟨fun h => ?_, fun h h2 => ?_, fun h h2 => ?_, fun h => ?_⟩ <;>
    split_ifs <;> first | rfl | omega

/-- Witness for `discount_factor_tiers`: one quantity in every tier. -/
theorem discount_factor_tiers_witness :
    discount_factor 1 = 1.0 ∧ discount_factor 2 = 0.9 ∧
    discount_factor 31 = 0.8 ∧ discount_factor 101 = 0.75 :=
  ⟨(discount_factor_tiers 1).1 (by decide),
   (discount_factor_tiers 2).2.1 (by decide) (by decide),
   (discount_factor_tiers 31).2.2.1 (by decide) (by decide),
   (discount_factor_tiers 101).2.2.2 (by decide)⟩

/-- Claim C2: for every `Inputs` value and every triple of rate tables, the
`Result` of `compute` satisfies
`unit_price = materials_total + labor_total + addons_total - modeling_cost`
and `total = mround (modeling_cost + unit_price * qty * discount_factor qty) 5`
with `qty` the unit quantity; `modeling_cost` enters the total once, unscaled
by `qty` or the discount factor. -/
theorem compute_pricing_invariants (inputs : Inputs) (m w a : Dict) :
    (compute inputs m w a).unit_price =
        (compute inputs m w a).materials_total + (compute inputs m w a).labor_total
          + (compute inputs m w a).addons_total - (compute inputs m w a).modeling_cost
    ∧ (compute inputs m w a).qty = inputs.units_qty
    ∧ (compute inputs m w a).discount = discount_factor ((compute inputs m w a).qty)
    ∧ (compute inputs m w a).total =
        mround ((compute inputs m w a).modeling_cost
          + (compute inputs m w a).unit_price * (((compute inputs m w a).qty : ℤ) : ℚ)
            * discount_factor ((compute inputs m w a).qty)) 5 :=
  ⟨rfl, rfl, rfl, rfl⟩

/-- Claim C3: `mround x 5` is a multiple of 5 nearest to `x`; in particular
`mround 7 5 = 5` and `mround 8 5 = 10`; at exact midpoints the tie goes by one
fixed rule, round-half-to-even (Python 3 `round`), so `mround (5k + 5/2) 5`
is `5k` for even `k` and `5(k+1)` for odd `k` (e.g. `mround 2.5 5 = 0`). -/
theorem mround_nearest_multiple_of_five :
    (∀ (x : ℚ) (k : ℤ), |mround x 5 - x| ≤ |5 * (k : ℚ) - x|)
    ∧ mround 7 5 = 5 ∧ mround 8 5 = 10 ∧ mround (5/2) 5 = 0
    ∧ (∀ k : ℤ, mround (5 * (k : ℚ) + 5/2) 5 =
        if k % 2 = 0 then 5 * (k : ℚ) else 5 * ((k : ℚ) + 1)) := by
  refine ⟨fun x k => ?_, ?_, ?_, ?_, fun k => ?_⟩
  · have hm : mround x 5 = (roundHalfEven (x / 5) : ℚ) * 5 := by simp [mround]
    have e1 : (roundHalfEven (x / 5) : ℚ) * 5 - x = ((roundHalfEven (x / 5) : ℚ) - x / 5) * 5 := by
      ring
    have e2 : 5 * (k : ℚ) - x = ((k : ℚ) - x / 5) * 5 := by ring
    rw [hm, e1, e2, abs_mul, abs_mul]
    exact mul_le_mul_of_nonneg_right (roundHalfEven_nearest (x / 5) k) (abs_nonneg 5)
  · norm_num [mround, roundHalfEven]
  · norm_num [mround, roundHalfEven]
  · norm_num [mround, roundHalfEven]
  · have hdiv : (5 * (k : ℚ) + 5/2) / 5 = (k : ℚ) + 1/2 := by ring
    have hfl : ⌊(k : ℚ) + 1/2⌋ = k := by
      have h0 : ⌊(1/2 : ℚ)⌋ = 0 := by norm_num
      rw [add_comm, Int.floor_add_int, h0, zero_add]
    have hc1 : ¬((k : ℚ) + 1/2 - ⌊(k : ℚ) + 1/2⌋ < 1/2) := by rw [hfl]; norm_num
    have hc2 : ¬(1/2 < (k : ℚ) + 1/2 - ⌊(k : ℚ) + 1/2⌋) := by rw [hfl]; norm_num
    rw [mround, if_neg (by norm_num : ¬(5 : ℚ) = 0), hdiv]
    rw [roundHalfEven, if_neg hc1, if_neg hc2, hfl]
    by_cases hk : k % 2 = 0 <;> simp [hk] <;> ring

/-- Claim C4: for every `Inputs` value and rate tables, a material name, labor
category or add-on key absent from its rate table contributes exactly cost `0`
for that breakdown line, and `compute` returns normally (it is a total
function of its arguments; no key error is possible).  Breakdown indices: the
material lines come first, then the three labor rows (modeling, printing,
assembly), then the three add-on rows (magnets, single LED, desk LED). -/
theorem compute_unknown_key_zero (inputs : Inputs) (m w a : Dict) :
    (∀ (j : ℕ) (name : String) (grams : ℚ),
        inputs.material_lines[j]? = some (name, grams) → dget? m name = none →
        (compute inputs m w a).breakdown[j]? = some ⟨"חומר " ++ toString (1 + j), 0⟩)
    ∧ (dget? w "מידול" = none →
        (compute inputs m w a).modeling_cost = 0
        ∧ (compute inputs m w a).breakdown[inputs.material_lines.length]? = some ⟨"עבודה", 0⟩)
    ∧ (dget? w "הדפסה" = none →
        (compute inputs m w a).breakdown[inputs.material_lines.length + 1]? = some ⟨"עבודה", 0⟩)
    ∧ (dget? w "הרכבה" = none →
        (compute inputs m w a).breakdown[inputs.material_lines.length + 2]? = some ⟨"עבודה", 0⟩)
    ∧ (dget? a "מגנטים (שקל/מגנט)" = none →
        (compute inputs m w a).breakdown[inputs.material_lines.length + 3]? = some ⟨"תוספות", 0⟩)
    ∧ (dget? a "לד בודד" = none →
        (compute inputs m w a).breakdown[inputs.material_lines.length + 4]? = some ⟨"תוספות", 0⟩)
    ∧ (dget? a "לד שולחני" = none →
        (compute inputs m w a).breakdown[inputs.material_lines.length + 5]? = some ⟨"תוספות", 0⟩) := by
  have hlen : (materialRows (m.map (fun p => (p.1, p.2 / 1000))) 1 inputs.material_lines).length
      = inputs.material_lines.length := materialRows_length _ _ _
  refine ⟨?_, ?_, ?_, ?_, ?_, ?_, ?_⟩
  · intro j name grams h1 h2
    have hj : j < inputs.material_lines.length := by
      rcases List.getElem?_eq_some_iff.mp h1 with ⟨hlt, _⟩
      exact hlt
    have hnone : dget? (m.map (fun p => (p.1, p.2 / 1000))) name = none := by
      rw [dget?_map_snd (fun v => v / 1000) m name, h2]; rfl
    have hrow := materialRows_getElem? (m.map (fun p => (p.1, p.2 / 1000)))
      inputs.material_lines 1 j name grams h1
    rw [compute_breakdown_shape, List.getElem?_append_left (by simp [hlen]; omega),
      List.getElem?_append_left (by simp [hlen]; omega), hrow, dgetD, hnone]
    simp
  · intro h
    constructor
    · rw [compute_modeling_cost_eq, dgetD, h]
      simp
    · rw [compute_breakdown_shape, List.getElem?_append_left (by simp [hlen]),
        List.getElem?_append_right (by omega)]
      simp [hlen, dgetD, h]
  · intro h
    rw [compute_breakdown_shape, List.getElem?_append_left (by simp [hlen]),
      List.getElem?_append_right (by omega)]
    simp [hlen, dgetD, h]
  · intro h
    rw [compute_breakdown_shape, List.getElem?_append_left (by simp [hlen]),
      List.getElem?_append_right (by omega)]
    simp [hlen, dgetD, h]
  · intro h
    rw [compute_breakdown_shape, List.getElem?_append_right (by simp [hlen])]
    simp [hlen, dgetD, h]
  · intro h
    rw [compute_breakdown_shape, List.getElem?_append_right (by simp [hlen])]
    simp [hlen, dgetD, h]
  · intro h
    rw [compute_breakdown_shape, List.getElem?_append_right (by simp [hlen])]
    simp [hlen, dgetD, h]

/-- Witness for `compute_unknown_key_zero`: one material line `("X", 5)` and
all three rate tables empty, so every lookup misses; every charged cost is 0. -/
theorem compute_unknown_key_zero_witness :
    (compute ⟨"p", [("X", 5)], none, none, none, 0, 0, 0, 2⟩ [] [] []).breakdown[0]?
        = some ⟨"חומר " ++ toString (1 + 0), 0⟩
    ∧ (compute ⟨"p", [("X", 5)], none, none, none, 0, 0, 0, 2⟩ [] [] []).modeling_cost = 0
    ∧ (compute ⟨"p", [("X", 5)], none, none, none, 0, 0, 0, 2⟩ [] [] []).breakdown[1]?
        = some ⟨"עבודה", 0⟩
    ∧ (compute ⟨"p", [("X", 5)], none, none, none, 0, 0, 0, 2⟩ [] [] []).breakdown[2]?
        = some ⟨"עבודה", 0⟩
    ∧ (compute ⟨"p", [("X", 5)], none, none, none, 0, 0, 0, 2⟩ [] [] []).breakdown[3]?
        = some ⟨"עבודה", 0⟩
    ∧ (compute ⟨"p", [("X", 5)], none, none, none, 0, 0, 0, 2⟩ [] [] []).breakdown[4]?
        = some ⟨"תוספות", 0⟩
    ∧ (compute ⟨"p", [("X", 5)], none, none, none, 0, 0, 0, 2⟩ [] [] []).breakdown[5]?
        = some ⟨"תוספות", 0⟩
    ∧ (compute ⟨"p", [("X", 5)], none, none, none, 0, 0, 0, 2⟩ [] [] []).breakdown[6]?
        = some ⟨"תוספות", 0⟩ :=
  have h := compute_unknown_key_zero ⟨"p", [("X", 5)], none, none, none, 0, 0, 0, 2⟩ [] [] []
  ⟨h.1 0 "X" 5 rfl rfl, (h.2.1 rfl).1, (h.2.1 rfl).2, h.2.2.1 rfl, h.2.2.2.1 rfl,
   h.2.2.2.2.1 rfl, h.2.2.2.2.2.1 rfl, h.2.2.2.2.2.2 rfl⟩

/-- A sheet whose row-6 name cell holds the number `0` and price cell `5`:
the name cell is non-empty, yet Python's `if name:` skips the row. -/
def sheetNumericZeroName : Sheet := fun r c =>
  if r == 6 && c == 3 then .num 0
  else if r == 6 && c == 4 then .num 5
  else .blank

/-- Counterexample to claim C6 as stated: "a row contributes an entry if and
only if its name cell is non-empty" fails, because the reader tests Python
truthiness, not emptiness.  On `sheetNumericZeroName` the row-6 name cell is
non-empty (it is neither blank nor the empty string — it holds the number
`0`), yet `read_rates_from_sheet` returns three empty tables. -/
theorem read_rates_nonempty_name_no_entry_cex :
    (sheetNumericZeroName 6 3 ≠ CellVal.blank ∧ sheetNumericZeroName 6 3 ≠ CellVal.str "")
    ∧ read_rates_from_sheet sheetNumericZeroName = .ok ([], [], []) := by
  exact ⟨⟨by decide, by decide⟩, rfl⟩

/-- Claim C6 amended: whenever `read_rates_from_sheet` succeeds, the three
tables are exactly the spec-described tables (`specTable`) of the fixed row
ranges — materials rows 6-9, labor rows 13-15, add-ons rows 18-20, column C
the name and column D the price — with "non-empty name cell" amended to
"truthy name cell" (a cell holding the number `0` is skipped as well), a
falsy price cell giving price `0.0`, and later duplicate names overwriting
earlier ones. -/
theorem read_rates_tables_eq_spec (ws : Sheet) (m w a : Dict)
    (h : read_rates_from_sheet ws = .ok (m, w, a)) :
    m = specTable ws [6, 7, 8, 9] ∧ w = specTable ws [13, 14, 15]
      ∧ a = specTable ws [18, 19, 20] := by
  unfold read_rates_from_sheet at h
  cases h1 : readTableGo ws [6, 7, 8, 9] [] with
  | error e =>
    rw [h1] at h
    exact absurd (show (Except.error e : Except Unit (Dict × Dict × Dict)) = .ok (m, w, a) from h)
      (by simp)
  | ok mt =>
    rw [h1] at h
    cases h2 : readTableGo ws [13, 14, 15] [] with
    | error e =>
      rw [h2] at h
      exact absurd (show (Except.error e : Except Unit (Dict × Dict × Dict)) = .ok (m, w, a) from h)
        (by simp)
    | ok wt =>
      rw [h2] at h
      cases h3 : readTableGo ws [18, 19, 20] [] with
      | error e =>
        rw [h3] at h
        exact absurd
          (show (Except.error e : Except Unit (Dict × Dict × Dict)) = .ok (m, w, a) from h)
          (by simp)
      | ok at' =>
        rw [h3] at h
        have h' : (Except.ok (mt, wt, at') : Except Unit (Dict × Dict × Dict))
            = .ok (m, w, a) := h
        simp only [Except.ok.injEq, Prod.mk.injEq] at h'
        obtain ⟨hm, hw, ha⟩ := h'
        exact ⟨hm ▸ (readTableGo_ok_spec ws _ _ _ h1).symm,
               hw ▸ (readTableGo_ok_spec ws _ _ _ h2).symm,
               ha ▸ (readTableGo_ok_spec ws _ _ _ h3).symm⟩

/-- A sheet with a single included row: row 6 has name `"PLA"` and a blank
price cell. -/
def sheetNameOnlyRow6 : Sheet := fun r c =>
  if r == 6 && c == 3 then .str "PLA" else .blank

/-- Witness for `read_rates_tables_eq_spec`: on `sheetNameOnlyRow6` the reader
succeeds with materials `{"PLA": 0.0}` (blank price cell read as `0.0`) and
empty labor/add-on tables, all equal to the spec-described tables. -/
theorem read_rates_tables_eq_spec_witness :
    [("PLA", (0 : ℚ))] = specTable sheetNameOnlyRow6 [6, 7, 8, 9]
    ∧ ([] : Dict) = specTable sheetNameOnlyRow6 [13, 14, 15]
    ∧ ([] : Dict) = specTable sheetNameOnlyRow6 [18, 19, 20] :=
  read_rates_tables_eq_spec sheetNameOnlyRow6 [("PLA", 0)] [] [] rfl

/-- A sheet whose row 13 is included (name `"עבודה"`) but has the non-numeric
price cell `"abc"`. -/
def sheetNonNumericPrice : Sheet := fun r c =>
  if r == 13 && c == 3 then .str "עבודה"
  else if r == 13 && c == 4 then .str "abc"
  else .blank

/-- Claim C7: if any row of the three read ranges has a truthy name cell and a
price cell that does not coerce to a number (Python `float` raises
`ValueError`), then `read_rates_from_sheet` raises — it returns the error and
no rate tables are produced. -/
theorem read_rates_nonnumeric_price_raises (ws : Sheet)
    (h : ∃ r ∈ [6, 7, 8, 9] ++ [13, 14, 15] ++ [18, 19, 20],
        truthy (ws r 3) = true ∧ pyFloatOrZero (ws r 4) = none) :
    read_rates_from_sheet ws = .error () := by
  rcases h with ⟨r, hr, hbad⟩
  unfold read_rates_from_sheet
  rcases List.mem_append.mp hr with hr12 | hr3
  · rcases List.mem_append.mp hr12 with hr1 | hr2
    · rw [readTableGo_error_of_bad ws [6, 7, 8, 9] [] ⟨r, hr1, hbad⟩]
      rfl
    · have hW := readTableGo_error_of_bad ws [13, 14, 15] [] ⟨r, hr2, hbad⟩
      cases hM : readTableGo ws [6, 7, 8, 9] [] with
      | error e => cases e; rfl
      | ok mt => rw [hW]; rfl
  · have hA := readTableGo_error_of_bad ws [18, 19, 20] [] ⟨r, hr3, hbad⟩
    cases hM : readTableGo ws [6, 7, 8, 9] [] with
    | error e => cases e; rfl
    | ok mt =>
      cases hW : readTableGo ws [13, 14, 15] [] with
      | error e => cases e; rfl
      | ok wt => rw [hA]; rfl

/-- Witness for `read_rates_nonnumeric_price_raises`: on `sheetNonNumericPrice`
row 13 is included and its price `"abc"` does not parse, so the reader fails. -/
theorem read_rates_nonnumeric_price_raises_witness :
    read_rates_from_sheet sheetNonNumericPrice = .error () :=
  read_rates_nonnumeric_price_raises sheetNonNumericPrice ⟨13, by decide, by decide, by decide⟩

/-- Counterexample to claim C5 as stated: `compute` does not reject negative
grams with a domain error — it returns a `Result` normally (in the source
there is no validation anywhere between lines 96 and 142), and that `Result`
silently carries a negative cost: with material rate `{"PLA": 100}` and a
line of `-100` grams, `materials_total = (100/1000) * (-100) = -10 < 0`. -/
theorem compute_negative_grams_cex :
    (compute ⟨"p", [("PLA", -100)], none, none, none, 0, 0, 0, 1⟩
        [("PLA", 100)] [] []).materials_total = -10
    ∧ (compute ⟨"p", [("PLA", -100)], none, none, none, 0, 0, 0, 1⟩
        [("PLA", 100)] [] []).materials_total < 0 := by
  constructor <;> norm_num [compute, materialRows, dgetD, dget?, List.find?, List.foldl]

/-- Claim C5 amended: `compute` performs no validation of negative inputs; a
material line with negative grams and a positive rate flows through and
produces a strictly negative cost in the returned `Result`'s breakdown. -/
theorem compute_accepts_negative_grams (inputs : Inputs) (m w a : Dict) (j : ℕ)
    (name : String) (grams rate : ℚ)
    (h1 : inputs.material_lines[j]? = some (name, grams))
    (h2 : dget? m name = some rate) (h3 : 0 < rate) (h4 : grams < 0) :
    ∃ c : ℚ,
      (compute inputs m w a).breakdown[j]? = some ⟨"חומר " ++ toString (1 + j), c⟩ ∧ c < 0 := by
  have hj : j < inputs.material_lines.length := (List.getElem?_eq_some_iff.mp h1).1
  have hlen : (materialRows (m.map (fun p => (p.1, p.2 / 1000))) 1 inputs.material_lines).length
      = inputs.material_lines.length := materialRows_length _ _ _
  have hsome : dget? (m.map (fun p => (p.1, p.2 / 1000))) name = some (rate / 1000) := by
    rw [dget?_map_snd (fun v => v / 1000) m name, h2]; rfl
  have hrow := materialRows_getElem? (m.map (fun p => (p.1, p.2 / 1000)))
    inputs.material_lines 1 j name grams h1
  refine ⟨rate / 1000 * grams, ?_, ?_⟩
  · rw [compute_breakdown_shape, List.getElem?_append_left (by simp [hlen]; omega),
      List.getElem?_append_left (by simp [hlen]; omega), hrow, dgetD, hsome]
    rfl
  · exact mul_neg_of_pos_of_neg (div_pos h3 (by norm_num)) h4

/-- Witness for `compute_accepts_negative_grams` at a concrete negative line. -/
theorem compute_accepts_negative_grams_witness :
    ∃ c : ℚ,
      (compute ⟨"q", [("ABS", -5)], none, none, none, 0, 0, 0, 1⟩
          [("ABS", 7)] [] []).breakdown[0]? = some ⟨"חומר " ++ toString (1 + 0), c⟩ ∧ c < 0 :=
  compute_accepts_negative_grams ⟨"q", [("ABS", -5)], none, none, none, 0, 0, 0, 1⟩
    [("ABS", 7)] [] [] 0 "ABS" (-5) 7 rfl rfl (by decide) (by decide)

/-- Claim C9: `compute` is deterministic — two calls with equal inputs and
equal material, labor and add-on rate tables return equal `Result`s (equality
of the structures is equality of every field).  In this embedding `compute`
is a pure function, so this is definitional. -/
theorem compute_deterministic (i₁ i₂ : Inputs) (m₁ m₂ w₁ w₂ a₁ a₂ : Dict)
    (hi : i₁ = i₂) (hm : m₁ = m₂) (hw : w₁ = w₂) (ha : a₁ = a₂) :
    compute i₁ m₁ w₁ a₁ = compute i₂ m₂ w₂ a₂ := by
  subst hi; subst hm; subst hw; subst ha; rfl

/-- Witness for `compute_deterministic` at a concrete input. -/
theorem compute_deterministic_witness :
    compute ⟨"p", [], none, none, none, 0, 0, 0, 0⟩ [] [] []
      = compute ⟨"p", [], none, none, none, 0, 0, 0, 0⟩ [] [] [] :=
  compute_deterministic ⟨"p", [], none, none, none, 0, 0, 0, 0⟩
    ⟨"p", [], none, none, none, 0, 0, 0, 0⟩ [] [] [] [] [] [] rfl rfl rfl rfl

/-- Claim C8 (code bug): the exporters display the discount percentage with
`int((1-result['discount'])*100)` (`render_pdf` line 182, `render_image`
line 243).  The claim (and spec §4.3) requires `(1 − discount_factor) × 100`
rounded to an integer — 10 for factor 0.9 and 20 for 0.8 — but in binary64
arithmetic `1 - 0.9` is `0.09999999999999997779…`, `(1-0.9)*100` is
`9.99999999999999822…`, and `int` truncates toward zero, so the program
actually displays 9 (and 19 for factor 0.8; 0.75 is exact, giving 25).  The
first member of each pair below fixes the tier's discount factor, the second
evaluates the display expression on the binary64 value of that factor's
source literal. -/
theorem exporter_discount_display_bug :
    (discount_factor 2 = 0.9 ∧ displayedDiscountPercent (float64OfRat 9 10) = 9)
    ∧ (discount_factor 31 = 0.8 ∧ displayedDiscountPercent (float64OfRat 4 5) = 19)
    ∧ (discount_factor 101 = 0.75 ∧ displayedDiscountPercent (float64OfRat 3 4) = 25) := by
  refine ⟨⟨?_, by decide⟩, ⟨?_, by decide⟩, ⟨?_, by decide⟩⟩ <;> norm_num [discount_factor]

/-- Claim C10: `mround x 0 = x` for every `x` — the division by the multiple
is guarded by the explicit `multiple == 0` check, so `mround` is total and
never divides by zero. -/
theorem mround_zero_multiple (x : ℚ) : mround x 0 = x := by
  simp [mround]

end PrintPricing
